import Mathlib

set_option maxRecDepth 8000

/-!
Shallow embedding of `04-core-code/app-context.js` from the roller-blind quoting
tool: the `AppContext` dependency-injection container and the two embedded
versions of `WorkflowService` (remote/dual distribution dialogs, printable-quote
financials, page-1 item preparation, file load, load confirmation, and the
`_populateTemplate` placeholder substitution).

JavaScript numbers are embedded as rationals (`ℚ`); nullable numbers as
`Option ℚ`; objects keyed by strings as association lists; the DOM reads of the
dialog callbacks are embedded by passing the two input strings as arguments.
-/

/-- Nullable JavaScript number: `none` models `null` (or an absent value),
`some q` a finite number, embedded as a rational. -/
abbrev JsNum := Option ℚ

/-- Truthiness of a nullable number: `null` and `0` are falsy, every other
number is truthy. -/
def jsTruthyNum (v : JsNum) : Bool :=
  match v with
  | none => false
  | some q => decide (q ≠ 0)

/-- JavaScript `v || d` on a nullable number: the value when truthy, else the
default. -/
def jsOrDefault (v : JsNum) (d : ℚ) : ℚ :=
  if jsTruthyNum v then v.getD 0 else d

/-- Lookup of a string-keyed property on an object literal, modelled as an
association list (first binding wins, as JS object keys are unique). -/
def jsLookup {α : Type} : List (String × α) → String → Option α
  | [], _ => none
  | p :: t, k => if p.1 = k then some p.2 else jsLookup t k

/-- One line item of the current product. Only the fields the claims touch are
kept: `width`/`height` (nullable numbers) and `dual` (nullable string, `'D'`
marks a dual-bracket item). -/
structure Item where
  width : JsNum
  height : JsNum
  dual : Option String
deriving DecidableEq

/-- A product entry of `quoteData.products`. -/
structure Product where
  items : List Item
deriving DecidableEq

/-- The quote state: the current product key and the products map. -/
structure QuoteData where
  currentProduct : String
  products : List (String × Product)
deriving DecidableEq

/-- The `ui.f1` sub-state holding the remote and dual distribution quantities. -/
structure F1State where
  remote_1ch_qty : JsNum
  remote_16ch_qty : JsNum
  dual_combo_qty : JsNum
  dual_slim_qty : JsNum
deriving DecidableEq

/-- The `ui.f2` sub-state: fee quantities and fee exclusion flags. -/
structure F2State where
  deliveryQty : JsNum
  installQty : JsNum
  removalQty : JsNum
  deliveryFeeExcluded : Bool
  installFeeExcluded : Bool
  removalFeeExcluded : Bool
deriving DecidableEq

/-- The ui state slice used by the workflow service. -/
structure UiState where
  f1 : F1State
  f2 : F2State
  driveRemoteCount : JsNum
deriving DecidableEq

/-- The aggregate figures produced by `calculationService.calculateF2Summary`
(that service is outside this file's source; the workflow code consumes the
figures, so they are universally quantified inputs here). -/
structure SummaryData where
  firstRbPrice : ℚ
  disRbPrice : ℚ
  acceSum : ℚ
  eAcceSum : ℚ
  deliveryFee : ℚ
  installFee : ℚ
  removalFee : ℚ
deriving DecidableEq

/-- Embeds `_getItems` and the inline lookup
`quoteData.products[productKey] ? quoteData.products[productKey].items : []`. -/
def getItems (qd : QuoteData) : List Item :=
  match jsLookup qd.products qd.currentProduct with
  | some p => p.items
  | none => []

/-- Value of a run of decimal digits, most significant first. -/
def digitsToNat (l : List Char) : ℕ :=
  l.foldl (fun a c => a * 10 + (c.toNat - 48)) 0

/-- Model of JavaScript `parseInt(s, 10)`: skip leading whitespace, read an
optional sign and then a maximal run of decimal digits (trailing characters are
ignored); `none` models the `NaN` result when no digit is found. -/
def jsParseInt (s : String) : Option ℤ :=
  let l := s.data.dropWhile Char.isWhitespace
  let sgn : ℤ := match l.head? with | some '-' => -1 | _ => 1
  let l2 := match l.head? with | some '-' => l.tail | some '+' => l.tail | _ => l
  let ds := l2.takeWhile Char.isDigit
  if ds.isEmpty then none else some (sgn * digitsToNat ds)

/-- Observable outcome of a dialog Confirm callback: the dispatched
distribution action's arguments (if any), whether an error notification was
published, and the boolean the callback returns. -/
structure ConfirmOutcome where
  dispatched : Option (ℤ × ℤ)
  errorNotified : Bool
  result : Bool
deriving DecidableEq

/-- `totalRemoteCount = ui.driveRemoteCount || 0` from `handleRemoteDistribution`. -/
def totalRemoteCount (ui : UiState) : ℚ :=
  jsOrDefault ui.driveRemoteCount 0

/-- Embeds the Confirm callback of the remote-distribution dialog
(`handleRemoteDistribution`): parse the two dialog inputs with
`parseInt(-, 10)`; on `NaN` or a negative value publish an error and return
`false`; if the sum differs from the total publish an error and return
`false`; otherwise dispatch `setF1RemoteDistribution(qty1ch, qty16ch)` and
return `true`. -/
def remoteConfirmCallback (total : ℚ) (s1ch s16ch : String) : ConfirmOutcome :=
  match jsParseInt s1ch, jsParseInt s16ch with
  | some q1, some q16 =>
    if q1 < 0 ∨ q16 < 0 then ⟨none, true, false⟩
    else if ((q1 + q16 : ℤ) : ℚ) ≠ total then ⟨none, true, false⟩
    else ⟨some (q1, q16), false, true⟩
  | _, _ => ⟨none, true, false⟩

/-- `totalDualPairs = Math.floor(items.filter(item => item.dual === 'D').length / 2)`
from `handleDualDistribution` (JS division is real division, then `Math.floor`). -/
def totalDualPairs (items : List Item) : ℕ :=
  (⌊(((items.filter fun i => i.dual == some "D").length : ℚ) / 2)⌋).toNat

/-- Embeds the Confirm callback of the dual-distribution dialog
(`handleDualDistribution`): same shape as the remote dialog, dispatching
`setF1DualDistribution(qtyCombo, qtySlim)` against `totalDualPairs`. -/
def dualConfirmCallback (total : ℕ) (sCombo sSlim : String) : ConfirmOutcome :=
  match jsParseInt sCombo, jsParseInt sSlim with
  | some qc, some qs =>
    if qc < 0 ∨ qs < 0 then ⟨none, true, false⟩
    else if qc + qs ≠ (total : ℤ) then ⟨none, true, false⟩
    else ⟨some (qc, qs), false, true⟩
  | _, _ => ⟨none, true, false⟩

/-- The two values `handleRemoteDistribution` places in the dialog inputs:
`initial1ch = ui.f1.remote_1ch_qty` and
`initial16ch = (ui.f1.remote_16ch_qty === null) ? totalRemoteCount - initial1ch
: ui.f1.remote_16ch_qty` (JS subtraction coerces a `null` `initial1ch` to 0). -/
def remoteInitialValues (ui : UiState) : JsNum × JsNum :=
  (ui.f1.remote_1ch_qty,
   match ui.f1.remote_16ch_qty with
   | none => some (totalRemoteCount ui - ui.f1.remote_1ch_qty.getD 0)
   | some v => some v)

/-- The QTY cell of a page-1 row: a number or the literal string `'N/A'`. -/
inductive QtyVal
  | na
  | num (q : ℚ)
deriving DecidableEq

/-- One row produced by `createRow` inside `_preparePage1Items`; the HTML
rendering is projected to its structured content (the counter and the markup
carry no further data). -/
structure Page1Row where
  description : String
  details : String
  qty : QtyVal
  price : ℚ
  discountedPrice : ℚ
  isExcluded : Bool
deriving DecidableEq

/-- `validItemCount = items.filter(i => i.width && i.height).length`. -/
def validItemCount (items : List Item) : ℕ :=
  (items.filter fun i => jsTruthyNum i.width && jsTruthyNum i.height).length

/-- Embeds `_preparePage1Items`: each conditional block appends one row via
`createRow`, which adds the row's discounted price to the running `subtotal`;
the subtotal is therefore the sum of the discounted prices of the appended
rows. Returns the row list (in emission order) and the subtotal. -/
def preparePage1Items (sd : SummaryData) (qd : QuoteData) (ui : UiState) :
    List Page1Row × ℚ :=
  let items := getItems qd
  let vic : ℚ := (validItemCount items : ℚ)
  let rows : List Page1Row :=
    (if 0 < sd.disRbPrice then
      [⟨"Roller Blinds", "See attached list for details.", .num vic,
        sd.firstRbPrice, sd.disRbPrice, false⟩] else [])
    ++ (if 0 < sd.acceSum then
      [⟨"Installation Accessories", "Dual Brackets, HD Winders, etc.", .na,
        sd.acceSum, sd.acceSum, false⟩] else [])
    ++ (if 0 < sd.eAcceSum then
      [⟨"Motorised Sets & Accessories", "Motors, Remotes, Chargers, etc.", .na,
        sd.eAcceSum, sd.eAcceSum, false⟩] else [])
    ++ (if 0 < sd.deliveryFee then
      [⟨"Delivery", "", .num (jsOrDefault ui.f2.deliveryQty 1), sd.deliveryFee,
        if ui.f2.deliveryFeeExcluded then 0 else sd.deliveryFee,
        ui.f2.deliveryFeeExcluded⟩] else [])
    ++ (if 0 < sd.installFee then
      [⟨"Installation", "", .num (jsOrDefault ui.f2.installQty vic), sd.installFee,
        if ui.f2.installFeeExcluded then 0 else sd.installFee,
        ui.f2.installFeeExcluded⟩] else [])
    ++ (if 0 < sd.removalFee then
      [⟨"Removal", "", .num (jsOrDefault ui.f2.removalQty 0), sd.removalFee,
        if ui.f2.removalFeeExcluded then 0 else sd.removalFee,
        ui.f2.removalFeeExcluded⟩] else [])
  (rows, (rows.map Page1Row.discountedPrice).sum)

/-- The page-1 aggregate figures of the refactored `handlePrintableQuoteRequest`. -/
structure QuoteFinancials where
  subtotal : ℚ
  gst : ℚ
  grandTotal : ℚ
  deposit : ℚ
  balance : ℚ
  savings : ℚ
deriving DecidableEq

/-- Embeds the aggregate computation of the refactored
`handlePrintableQuoteRequest`: `subtotal` from `_preparePage1Items`,
`gst = subtotal * 0.1`, `grandTotal = subtotal + gst`,
`deposit = grandTotal * 0.5`, `balance = grandTotal - deposit`,
`savings = summaryData.firstRbPrice - summaryData.disRbPrice`. -/
def printableQuoteFinancials (sd : SummaryData) (qd : QuoteData) (ui : UiState) :
    QuoteFinancials :=
  let subtotal := (preparePage1Items sd qd ui).2
  let gst := subtotal * (1 / 10)
  let grandTotal := subtotal + gst
  let deposit := grandTotal * (1 / 2)
  let balance := grandTotal - deposit
  let savings := sd.firstRbPrice - sd.disRbPrice
  ⟨subtotal, gst, grandTotal, deposit, balance, savings⟩

/-- State actions dispatched through `stateService.dispatch`. -/
inductive StateAction
  | setQuoteData (d : QuoteData)
  | resetUi
  | setSumOutdated (b : Bool)
deriving DecidableEq

/-- A published notification: plain (success) or error. -/
inductive Notif
  | info (message : String)
  | errorNote (message : String)
deriving DecidableEq

/-- Result of `fileService.parseFileContent` as consumed by `handleFileLoad`. -/
inductive ParseResult
  | success (data : QuoteData) (message : String)
  | failure (message : String)
deriving DecidableEq

/-- Embeds `handleFileLoad`: on a successful parse dispatch `setQuoteData`,
`resetUi` and `setSumOutdated(true)` in that order and publish the success
message; on failure publish the error message only. Returns the dispatched
actions (in order) and the published notifications. -/
def handleFileLoad (result : ParseResult) : List StateAction × List Notif :=
  match result with
  | .success d msg => ([.setQuoteData d, .resetUi, .setSumOutdated true], [.info msg])
  | .failure msg => ([], [.errorNote msg])

/-- The event published by `handleUserRequestedLoad`. -/
inductive LoadEvent
  | showLoadConfirmationDialog
  | triggerFileLoad
deriving DecidableEq

/-- Embeds `handleUserRequestedLoad`:
`hasData = items.length > 1 || (items.length === 1 && (items[0].width || items[0].height))`;
publish `SHOW_LOAD_CONFIRMATION_DIALOG` when `hasData`, else `TRIGGER_FILE_LOAD`. -/
def handleUserRequestedLoad (qd : QuoteData) : LoadEvent :=
  let items := getItems qd
  let hasData := decide (1 < items.length) ||
    (decide (items.length = 1) &&
      (match items with
       | i :: _ => jsTruthyNum i.width || jsTruthyNum i.height
       | [] => false))
  if hasData then .showLoadConfirmationDialog else .triggerFileLoad

/-- State of the `AppContext` DI container: the names with a registered
factory, the stored instances, and an allocation counter. Instances are JS
objects (always truthy); object identity is modelled by a fresh `ℕ` id that a
factory invocation allocates. -/
structure AppContextState where
  factories : List String
  instances : List (String × ℕ)
  nextId : ℕ
deriving DecidableEq

/-- Embeds `AppContext.get(name)`: if an instance is already stored return it;
otherwise invoke the registered factory (allocating a fresh instance and
caching it) or throw `'Dependency not found: <name>'` when none is registered.
A factory's own nested `get` calls touch other names only, so they are not
modelled. -/
def appContextGet (s : AppContextState) (name : String) :
    Except String (ℕ × AppContextState) :=
  match jsLookup s.instances name with
  | some v => .ok (v, s)
  | none =>
    if name ∈ s.factories then
      .ok (s.nextId, ⟨s.factories, (name, s.nextId) :: s.instances, s.nextId + 1⟩)
    else
      .error ("Dependency not found: " ++ name)

/-- Word character class of the JavaScript regex escape `\w`: ASCII letters,
digits and underscore. -/
def isWordChar (c : Char) : Bool :=
  c.isAlpha || c.isDigit || c = '_'

/-- Character class `[\w\-]` used by the key group of the first
`_populateTemplate` version. -/
def isKeyCharHyphen (c : Char) : Bool :=
  isWordChar c || c = '-'

/-- Maximal prefix of characters satisfying `kc`, with the remainder (the
greedy key group of the regex). -/
def spanKey (kc : Char → Bool) : List Char → List Char × List Char
  | [] => ([], [])
  | c :: cs =>
    if kc c then
      let p := spanKey kc cs
      (c :: p.1, p.2)
    else ([], c :: cs)

/-- After the opening braces: greedily read a nonempty key of `kc` characters,
then `}}` with a greedy optional third `}`. Returns the text consumed here,
the captured key, and the remainder of the input. -/
def matchKeyClose (kc : Char → Bool) (l : List Char) :
    Option (List Char × List Char × List Char) :=
  match spanKey kc l with
  | ([], _) => none
  | (key, '}' :: '}' :: '}' :: r) => some (key ++ ['}', '}', '}'], key, r)
  | (key, '}' :: '}' :: r) => some (key ++ ['}', '}'], key, r)
  | _ => none

/-- After `{{`: the greedy optional third `{` is tried first and backtracks to
the plain key attempt when its continuation fails. -/
def matchBody (kc : Char → Bool) (b : List Char) :
    Option (List Char × List Char × List Char) :=
  match b with
  | '{' :: t =>
    (match matchKeyClose kc t with
     | some (m, key, rest) => some ('{' :: m, key, rest)
     | none => matchKeyClose kc b)
  | _ => matchKeyClose kc b

/-- Attempt of the placeholder regex `\{\{\{?(key+)\}\}\}?` at the start of the
input: the matched text, the captured key, and the remainder. -/
def tryMatch (kc : Char → Bool) (l : List Char) :
    Option (List Char × List Char × List Char) :=
  match l with
  | '{' :: '{' :: t =>
    (match matchBody kc t with
     | some (m, key, rest) => some ('{' :: '{' :: m, key, rest)
     | none => none)
  | _ => none

/-- `data.hasOwnProperty(key) ? data[key] : undefined` on the template data
object, modelled as an association list with string values. -/
def dataLookup (data : List (String × String)) (k : String) : Option String :=
  jsLookup data k

/-- One step per scan position of `String.prototype.replace` with a global
regex: at each position substitute the leftmost match (by the looked-up value,
or by the matched text itself when the key is not a property) and continue
after it, else copy one character. The fuel argument only bounds the
recursion; every step consumes at least one character, so fuel equal to the
input length computes the exact result. -/
def populateFuel (kc : Char → Bool) (data : List (String × String)) :
    ℕ → List Char → List Char
  | 0, l => l
  | _ + 1, [] => []
  | fuel + 1, c :: cs =>
    match tryMatch kc (c :: cs) with
    | some (m, key, rest) =>
      (match dataLookup data (String.mk key) with
       | some v => v.data
       | none => m) ++ populateFuel kc data fuel rest
    | none => c :: populateFuel kc data fuel cs

/-- Embeds the first `_populateTemplate` version
(`template.replace(/\{\{\{?([\w\-]+)\}\}\}?/g, ...)`). -/
def populateTemplate (data : List (String × String)) (t : String) : String :=
  String.mk (populateFuel isKeyCharHyphen data t.data.length t.data)

/-- Embeds the second `_populateTemplate` version
(`template.replace(/\{\{\{?(\w+)}}}?/g, ...)`; the unescaped closing braces are
literal, so only the key class differs). -/
def populateTemplateV2 (data : List (String × String)) (t : String) : String :=
  String.mk (populateFuel isWordChar data t.data.length t.data)

/-- Specification side (written from the claim): `rest` does not begin with a
closing brace, so a greedy optional `\}?` would have matched nothing there. -/
def NotBraceHead (r : List Char) : Prop :=
  ∀ t, r ≠ '}' :: t

/-- Specification side (written from the claim): the placeholder regex matches
at the start of `l`, consuming `m` (one of the forms `{{key}}`, `{{key}}}`,
`{{{key}}`, `{{{key}}}` with a nonempty key of class characters) and leaving
`rest`; the forms ending in exactly `}}` require that `rest` does not start
with `}`, since the optional third closing brace is greedy. -/
def MatchAt (kc : Char → Bool) (l m key rest : List Char) : Prop :=
  l = m ++ rest ∧ key ≠ [] ∧ (∀ c ∈ key, kc c = true) ∧
  ((m = '{' :: '{' :: (key ++ ['}', '}']) ∧ NotBraceHead rest) ∨
   m = '{' :: '{' :: (key ++ ['}', '}', '}']) ∨
   (m = '{' :: '{' :: '{' :: (key ++ ['}', '}']) ∧ NotBraceHead rest) ∨
   m = '{' :: '{' :: '{' :: (key ++ ['}', '}', '}']))

/-- Specification relation (written from the claim): the output replaces each
placeholder whose key the data object has with the corresponding value, leaves
each placeholder whose key it does not have unchanged, and copies every
character outside placeholders unchanged, scanning left to right. -/
inductive Replaces (kc : Char → Bool) (lookup : String → Option String) :
    List Char → List Char → Prop
  | nil : Replaces kc lookup [] []
  | keep (c : Char) (cs out : List Char)
      (hnm : ∀ m key rest, ¬ MatchAt kc (c :: cs) m key rest)
      (ih : Replaces kc lookup cs out) :
      Replaces kc lookup (c :: cs) (c :: out)
  | subst (m key rest out : List Char) (v : String)
      (hm : MatchAt kc (m ++ rest) m key rest)
      (hv : lookup (String.mk key) = some v)
      (ih : Replaces kc lookup rest out) :
      Replaces kc lookup (m ++ rest) (v.data ++ out)
  | keepPh (m key rest out : List Char)
      (hm : MatchAt kc (m ++ rest) m key rest)
      (hv : lookup (String.mk key) = none)
      (ih : Replaces kc lookup rest out) :
      Replaces kc lookup (m ++ rest) (m ++ out)

/-- Sample items list with five dual-bracket items (total dual pairs: 2). -/
def itemsDualSample : List Item :=
  List.replicate 5 ⟨none, none, some "D"⟩

/-- Sample quote state used by concrete witnesses. -/
def qdSample : QuoteData :=
  ⟨"rollerBlind", [("rollerBlind", ⟨[]⟩)]⟩

/-- Sample ui state whose stored remote quantities (2 and 5) do not add up to
its total remote count (10). -/
def uiMismatch : UiState :=
  ⟨⟨some 2, some 5, none, none⟩, ⟨none, none, none, false, false, false⟩, some 10⟩

/-- Sample ui state with a null 16-channel quantity. -/
def uiNull16 : UiState :=
  ⟨⟨some 2, none, none, none⟩, ⟨none, none, none, false, false, false⟩, some 10⟩

/-- C1: In the refactored `handlePrintableQuoteRequest` the aggregate pricing
figures satisfy `gst = subtotal * 0.1`, `grandTotal = subtotal + gst`,
`deposit = grandTotal * 0.5`, `balance = grandTotal - deposit` and
`savings = summaryData.firstRbPrice - summaryData.disRbPrice`, where
`subtotal` is the value returned by `_preparePage1Items`; consequently
`deposit + balance = grandTotal`. -/
theorem printableQuoteFinancials_chain (sd : SummaryData) (qd : QuoteData)
    (ui : UiState) :
    (printableQuoteFinancials sd qd ui).subtotal = (preparePage1Items sd qd ui).2 ∧
    (printableQuoteFinancials sd qd ui).gst =
      (printableQuoteFinancials sd qd ui).subtotal * (1 / 10) ∧
    (printableQuoteFinancials sd qd ui).grandTotal =
      (printableQuoteFinancials sd qd ui).subtotal +
        (printableQuoteFinancials sd qd ui).gst ∧
    (printableQuoteFinancials sd qd ui).deposit =
      (printableQuoteFinancials sd qd ui).grandTotal * (1 / 2) ∧
    (printableQuoteFinancials sd qd ui).balance =
      (printableQuoteFinancials sd qd ui).grandTotal -
        (printableQuoteFinancials sd qd ui).deposit ∧
    (printableQuoteFinancials sd qd ui).savings = sd.firstRbPrice - sd.disRbPrice ∧
    (printableQuoteFinancials sd qd ui).deposit +
        (printableQuoteFinancials sd qd ui).balance =
      (printableQuoteFinancials sd qd ui).grandTotal := by
  refine ⟨rfl, rfl, rfl, rfl, rfl, rfl, ?_⟩
  simp only [printableQuoteFinancials]
  ring

/-- C4: the subtotal returned by `_preparePage1Items` is the sum of the
discounted prices of exactly the rows it emits: `disRbPrice`, `acceSum`,
`eAcceSum` when positive, and each positive fee contributing itself when not
excluded and 0 when excluded; absent rows contribute nothing. -/
theorem preparePage1Items_subtotal_spec (sd : SummaryData) (qd : QuoteData)
    (ui : UiState) :
    (preparePage1Items sd qd ui).2 =
      ((preparePage1Items sd qd ui).1.map Page1Row.discountedPrice).sum ∧
    (preparePage1Items sd qd ui).2 =
      (if 0 < sd.disRbPrice then sd.disRbPrice else 0) +
      (if 0 < sd.acceSum then sd.acceSum else 0) +
      (if 0 < sd.eAcceSum then sd.eAcceSum else 0) +
      (if 0 < sd.deliveryFee then
        (if ui.f2.deliveryFeeExcluded then 0 else sd.deliveryFee) else 0) +
      (if 0 < sd.installFee then
        (if ui.f2.installFeeExcluded then 0 else sd.installFee) else 0) +
      (if 0 < sd.removalFee then
        (if ui.f2.removalFeeExcluded then 0 else sd.removalFee) else 0) := by
  constructor
  · rfl
  · simp only [preparePage1Items]
    split_ifs <;> simp <;> ring

/-- C5: `handleFileLoad` dispatches exactly `setQuoteData`, `resetUi`,
`setSumOutdated(true)` in order plus a success notification on a successful
parse, and publishes only an error notification (no state action) on failure. -/
theorem handleFileLoad_spec (result : ParseResult) :
    (∀ d msg, result = .success d msg →
      handleFileLoad result =
        ([.setQuoteData d, .resetUi, .setSumOutdated true], [.info msg])) ∧
    (∀ msg, result = .failure msg →
      handleFileLoad result = ([], [.errorNote msg])) := by
  constructor
  · intro d msg h
    subst h
    rfl
  · intro msg h
    subst h
    rfl

/-- Witness for C5 at concrete inputs. -/
theorem handleFileLoad_spec_witness :
    handleFileLoad (.success qdSample "File loaded.") =
      ([.setQuoteData qdSample, .resetUi, .setSumOutdated true],
        [.info "File loaded."]) ∧
    handleFileLoad (.failure "Bad file.") = ([], [.errorNote "Bad file."]) :=
  ⟨(handleFileLoad_spec _).1 qdSample "File loaded." rfl,
   (handleFileLoad_spec _).2 "Bad file." rfl⟩

/-- C7: `handleUserRequestedLoad` publishes `SHOW_LOAD_CONFIRMATION_DIALOG`
iff the current product's item list has more than one item, or exactly one
item with a truthy width or height (a missing product entry being an empty
list); otherwise it publishes `TRIGGER_FILE_LOAD`, and never both. -/
theorem handleUserRequestedLoad_spec (qd : QuoteData) :
    (handleUserRequestedLoad qd = .showLoadConfirmationDialog ↔
      1 < (getItems qd).length ∨ ((getItems qd).length = 1 ∧
        ∃ i, (getItems qd).head? = some i ∧
          (jsTruthyNum i.width = true ∨ jsTruthyNum i.height = true))) ∧
    (handleUserRequestedLoad qd = .triggerFileLoad ↔
      ¬(1 < (getItems qd).length ∨ ((getItems qd).length = 1 ∧
        ∃ i, (getItems qd).head? = some i ∧
          (jsTruthyNum i.width = true ∨ jsTruthyNum i.height = true)))) ∧
    ¬(handleUserRequestedLoad qd = .showLoadConfirmationDialog ∧
      handleUserRequestedLoad qd = .triggerFileLoad) := by
  simp only [handleUserRequestedLoad]
  cases h : getItems qd with
  | nil => simp
  | cons i t =>
    cases t with
    | nil =>
      by_cases hw : jsTruthyNum i.width = true <;>
        by_cases hh : jsTruthyNum i.height = true <;>
          simp [hw, hh]
    | cons j t2 =>
      simp [Nat.succ_lt_succ]

/-- C8: `AppContext.get(name)` throws `'Dependency not found: <name>'` iff no
factory is registered under `name` and no instance is stored; otherwise it
returns an instance, and a repeated `get` returns the identical instance with
the state unchanged (the factory runs at most once). -/
theorem appContextGet_spec (s : AppContextState) (name : String) :
    (appContextGet s name = .error ("Dependency not found: " ++ name) ↔
      name ∉ s.factories ∧ jsLookup s.instances name = none) ∧
    (∀ msg, appContextGet s name = .error msg →
      msg = "Dependency not found: " ++ name) ∧
    (∀ v s', appContextGet s name = .ok (v, s') →
      appContextGet s' name = .ok (v, s')) := by
  refine ⟨?_, ?_, ?_⟩
  · cases h : jsLookup s.instances name with
    | some v => simp [appContextGet, h]
    | none =>
      by_cases hf : name ∈ s.factories <;> simp [appContextGet, h, hf]
  · intro msg hmsg
    cases h : jsLookup s.instances name with
    | some v => simp [appContextGet, h] at hmsg
    | none =>
      by_cases hf : name ∈ s.factories
      · simp [appContextGet, h, hf] at hmsg
      · simp [appContextGet, h, hf] at hmsg
        exact hmsg.symm
  · intro v s' hok
    cases h : jsLookup s.instances name with
    | some w =>
      simp only [appContextGet, h] at hok
      obtain ⟨rfl, rfl⟩ := Prod.mk.inj (Except.ok.inj hok)
      simp [appContextGet, h]
    | none =>
      by_cases hf : name ∈ s.factories
      · simp only [appContextGet, h, hf, if_true] at hok
        obtain ⟨rfl, rfl⟩ := Prod.mk.inj (Except.ok.inj hok)
        simp [appContextGet, jsLookup]
      · simp [appContextGet, h, hf] at hok

/-- Witness for C8 at concrete container states. -/
theorem appContextGet_spec_witness :
    appContextGet ⟨["eventAggregator"], [], 0⟩ "stateService" =
      .error "Dependency not found: stateService" ∧
    appContextGet ⟨["eventAggregator"], [("eventAggregator", 0)], 1⟩
        "eventAggregator" =
      .ok (0, ⟨["eventAggregator"], [("eventAggregator", 0)], 1⟩) :=
  ⟨(appContextGet_spec ⟨["eventAggregator"], [], 0⟩ "stateService").1.mpr
      ⟨by decide, rfl⟩,
   (appContextGet_spec ⟨["eventAggregator"], [], 0⟩ "eventAggregator").2.2 0
      ⟨["eventAggregator"], [("eventAggregator", 0)], 1⟩ rfl⟩

/-- C10 counterexample: in `uiMismatch` both initial dialog values are numbers
(2 and 5) but their sum does not equal the total remote count (10), so the
claim fails as stated. -/
theorem remoteInitialValues_counterexample :
    (remoteInitialValues uiMismatch).1 = some 2 ∧
    (remoteInitialValues uiMismatch).2 = some 5 ∧
    ¬((2 : ℚ) + 5 = totalRemoteCount uiMismatch) := by
  refine ⟨rfl, rfl, ?_⟩
  simp only [totalRemoteCount, uiMismatch, jsOrDefault, jsTruthyNum]
  norm_num

/-- C10 (amended): when `ui.f1.remote_16ch_qty` is null and
`ui.f1.remote_1ch_qty` is a number, the two initial dialog values of
`handleRemoteDistribution` are numbers whose sum equals the total remote
count. -/
theorem remoteInitialValues_sum (ui : UiState) (x : ℚ)
    (h1 : ui.f1.remote_1ch_qty = some x) (h16 : ui.f1.remote_16ch_qty = none) :
    ∃ a b : ℚ, (remoteInitialValues ui).1 = some a ∧
      (remoteInitialValues ui).2 = some b ∧ a + b = totalRemoteCount ui := by
  refine ⟨x, totalRemoteCount ui - x, ?_, ?_, by ring⟩
  · simp [remoteInitialValues, h1]
  · simp [remoteInitialValues, h1, h16]

/-- Witness for the amended C10 at a concrete ui state. -/
theorem remoteInitialValues_sum_witness :
    ∃ a b : ℚ, (remoteInitialValues uiNull16).1 = some a ∧
      (remoteInitialValues uiNull16).2 = some b ∧
      a + b = totalRemoteCount uiNull16 :=
  remoteInitialValues_sum uiNull16 2 rfl rfl

/-- C2: the remote-distribution Confirm callback dispatches
`setF1RemoteDistribution(q1ch, q16ch)` and returns `true` exactly when both
dialog strings `parseInt` to non-`NaN` values that are nonnegative and sum to
the total remote count; in every other case it publishes an error
notification, dispatches nothing, and returns `false`. -/
theorem remoteDistributionConfirm_spec (ui : UiState) (s1ch s16ch : String) :
    (∀ q1 q16 : ℤ, jsParseInt s1ch = some q1 → jsParseInt s16ch = some q16 →
      0 ≤ q1 → 0 ≤ q16 → ((q1 + q16 : ℤ) : ℚ) = totalRemoteCount ui →
      remoteConfirmCallback (totalRemoteCount ui) s1ch s16ch =
        ⟨some (q1, q16), false, true⟩) ∧
    ((¬ ∃ q1 q16 : ℤ, jsParseInt s1ch = some q1 ∧ jsParseInt s16ch = some q16 ∧
      0 ≤ q1 ∧ 0 ≤ q16 ∧ ((q1 + q16 : ℤ) : ℚ) = totalRemoteCount ui) →
      remoteConfirmCallback (totalRemoteCount ui) s1ch s16ch =
        ⟨none, true, false⟩) := by
  constructor
  · intro q1 q16 h1 h16 hq1 hq16 hsum
    simp [remoteConfirmCallback, h1, h16, not_lt.mpr hq1, not_lt.mpr hq16, hsum]
  · intro hno
    unfold remoteConfirmCallback
    cases h1 : jsParseInt s1ch with
    | none => rfl
    | some q1 =>
      cases h16 : jsParseInt s16ch with
      | none => rfl
      | some q16 =>
        by_cases hneg : q1 < 0 ∨ q16 < 0
        · simp [hneg]
        · by_cases hsum : ((q1 + q16 : ℤ) : ℚ) = totalRemoteCount ui
          · exact absurd ⟨q1, q16, h1, h16, by omega, by omega, hsum⟩ hno
          · push_cast at hsum
            simp [hneg, hsum]

/-- Witness for C2: both an accepted and a rejected concrete input. -/
theorem remoteDistributionConfirm_spec_witness :
    remoteConfirmCallback (totalRemoteCount uiMismatch) "7" "3" =
      ⟨some (7, 3), false, true⟩ :=
  (remoteDistributionConfirm_spec uiMismatch "7" "3").1 7 3 (by decide)
    (by decide) (by decide) (by decide)
    (by norm_num [totalRemoteCount, uiMismatch, jsOrDefault, jsTruthyNum])

/-- The dual-pair total computed with `Math.floor` over real division agrees
with natural floor division. -/
theorem totalDualPairs_eq_div (items : List Item) :
    totalDualPairs items =
      (items.filter fun i => i.dual == some "D").length / 2 := by
  unfold totalDualPairs
  rw [Int.floor_toNat, show ((2 : ℚ)) = ((2 : ℕ) : ℚ) by norm_num]
  exact Nat.floor_div_eq_div _ _

/-- C3: the dual-distribution dialog computes its total as the floor of half
the number of items whose `dual` field equals `'D'`, and its Confirm callback
accepts a pair exactly when both inputs parse to nonnegative non-`NaN` values
summing to that total, dispatching `setF1DualDistribution` and returning
`true`; otherwise it publishes an error notification and returns `false`. -/
theorem dualDistributionConfirm_spec (items : List Item) (sCombo sSlim : String) :
    totalDualPairs items =
      (items.filter fun i => i.dual == some "D").length / 2 ∧
    (∀ qc qs : ℤ, jsParseInt sCombo = some qc → jsParseInt sSlim = some qs →
      0 ≤ qc → 0 ≤ qs → qc + qs = (totalDualPairs items : ℤ) →
      dualConfirmCallback (totalDualPairs items) sCombo sSlim =
        ⟨some (qc, qs), false, true⟩) ∧
    ((¬ ∃ qc qs : ℤ, jsParseInt sCombo = some qc ∧ jsParseInt sSlim = some qs ∧
      0 ≤ qc ∧ 0 ≤ qs ∧ qc + qs = (totalDualPairs items : ℤ)) →
      dualConfirmCallback (totalDualPairs items) sCombo sSlim =
        ⟨none, true, false⟩) := by
  refine ⟨totalDualPairs_eq_div items, ?_, ?_⟩
  · intro qc qs hc hs hqc hqs hsum
    simp [dualConfirmCallback, hc, hs, not_lt.mpr hqc, not_lt.mpr hqs, hsum]
  · intro hno
    unfold dualConfirmCallback
    cases hc : jsParseInt sCombo with
    | none => rfl
    | some qc =>
      cases hs : jsParseInt sSlim with
      | none => rfl
      | some qs =>
        by_cases hneg : qc < 0 ∨ qs < 0
        · simp [hneg]
        · by_cases hsum : qc + qs = (totalDualPairs items : ℤ)
          · exact absurd ⟨qc, qs, hc, hs, by omega, by omega, hsum⟩ hno
          · simp [hneg, hsum]

/-- Witness for C3 at a concrete items list and dialog inputs. -/
theorem dualDistributionConfirm_spec_witness :
    dualConfirmCallback (totalDualPairs itemsDualSample) "1" "1" =
      ⟨some (1, 1), false, true⟩ :=
  (dualDistributionConfirm_spec itemsDualSample "1" "1").2.1 1 1 (by decide)
    (by decide) (by decide) (by decide)
    (by rw [totalDualPairs_eq_div]; decide)

/-- The two components of `spanKey` reassemble the input. -/
theorem spanKey_append (kc : Char → Bool) (l : List Char) :
    (spanKey kc l).1 ++ (spanKey kc l).2 = l := by
  induction l with
  | nil => rfl
  | cons c cs ih =>
    by_cases h : kc c <;> simp [spanKey, h, ih]

/-- Every character of the span satisfies the class. -/
theorem spanKey_mem (kc : Char → Bool) (l : List Char) :
    ∀ c ∈ (spanKey kc l).1, kc c = true := by
  induction l with
  | nil => intro c hc; simp [spanKey] at hc
  | cons c cs ih =>
    intro d hd
    by_cases h : kc c
    · simp [spanKey, h] at hd
      rcases hd with rfl | hd
      · exact h
      · exact ih d hd
    · simp [spanKey, h] at hd

/-- The head of the remainder fails the class. -/
theorem spanKey_rest_head (kc : Char → Bool) (l : List Char) :
    ∀ c cs, (spanKey kc l).2 = c :: cs → kc c = false := by
  induction l with
  | nil => intro c cs h; simp [spanKey] at h
  | cons a t ih =>
    intro c cs h
    by_cases ha : kc a
    · simp [spanKey, ha] at h
      exact ih c cs h
    · simp [spanKey, ha] at h
      rw [← h.1]
      simp [ha]

/-- `spanKey` on a class run followed by a non-class remainder splits exactly
there. -/
theorem spanKey_eq_of (kc : Char → Bool) (key r : List Char)
    (hkc : ∀ c ∈ key, kc c = true)
    (hr : ∀ c t, r = c :: t → kc c = false) :
    spanKey kc (key ++ r) = (key, r) := by
  induction key with
  | nil =>
    cases r with
    | nil => rfl
    | cons c t => simp [spanKey, hr c t rfl]
  | cons c cs ih =>
    have hc : kc c = true := hkc c (by simp)
    have ih' := ih (fun d hd => hkc d (by simp [hd]))
    simp [spanKey, hc, ih']

/-- Soundness of `matchKeyClose`: a successful result decomposes the input,
captures a nonempty class key, and closes with `}}` (with no further brace
ahead) or `}}}`. -/
theorem matchKeyClose_spec (kc : Char → Bool) (l m key rest : List Char)
    (h : matchKeyClose kc l = some (m, key, rest)) :
    l = m ++ rest ∧ key ≠ [] ∧ (∀ c ∈ key, kc c = true) ∧
    ((m = key ++ ['}', '}'] ∧ NotBraceHead rest) ∨ m = key ++ ['}', '}', '}']) := by
  unfold matchKeyClose at h
  split at h
  · exact absurd h (by simp)
  · simp only [Option.some.injEq, Prod.mk.injEq] at h
    obtain ⟨rfl, rfl, rfl⟩ := h
    rename_i key r hkey heq
    refine ⟨?_, fun hk => hkey hk, ?_, Or.inr rfl⟩
    · have hap := spanKey_append kc l
      rw [heq] at hap
      rw [← hap]
      simp
    · intro c hc
      have hm := spanKey_mem kc l
      rw [heq] at hm
      exact hm c hc
  · simp only [Option.some.injEq, Prod.mk.injEq] at h
    obtain ⟨rfl, rfl, rfl⟩ := h
    rename_i key r hkey hnb heq
    refine ⟨?_, fun hk => hkey hk, ?_, Or.inl ⟨rfl, hnb⟩⟩
    · have hap := spanKey_append kc l
      rw [heq] at hap
      rw [← hap]
      simp
    · intro c hc
      have hm := spanKey_mem kc l
      rw [heq] at hm
      exact hm c hc
  · exact absurd h (by simp)

/-- `matchKeyClose` on a key followed by `}}}`. -/
theorem matchKeyClose_three (kc : Char → Bool) (hcb : kc '}' = false)
    (key rest : List Char) (hk : key ≠ []) (hkc : ∀ c ∈ key, kc c = true) :
    matchKeyClose kc (key ++ '}' :: '}' :: '}' :: rest) =
      some (key ++ ['}', '}', '}'], key, rest) := by
  have hspan : spanKey kc (key ++ '}' :: '}' :: '}' :: rest) =
      (key, '}' :: '}' :: '}' :: rest) := by
    refine spanKey_eq_of kc key _ hkc ?_
    intro c t h
    obtain ⟨rfl, -⟩ := List.cons.inj h.symm
    exact hcb
  obtain ⟨k, ks, rfl⟩ := List.exists_cons_of_ne_nil hk
  unfold matchKeyClose
  rw [hspan]
  rfl

/-- `matchKeyClose` on a key followed by exactly `}}`. -/
theorem matchKeyClose_two (kc : Char → Bool) (hcb : kc '}' = false)
    (key rest : List Char) (hk : key ≠ []) (hkc : ∀ c ∈ key, kc c = true)
    (hnb : NotBraceHead rest) :
    matchKeyClose kc (key ++ '}' :: '}' :: rest) =
      some (key ++ ['}', '}'], key, rest) := by
  have hspan : spanKey kc (key ++ '}' :: '}' :: rest) =
      (key, '}' :: '}' :: rest) := by
    refine spanKey_eq_of kc key _ hkc ?_
    intro c t h
    obtain ⟨rfl, -⟩ := List.cons.inj h.symm
    exact hcb
  obtain ⟨k, ks, rfl⟩ := List.exists_cons_of_ne_nil hk
  unfold matchKeyClose
  rw [hspan]
  cases rest with
  | nil => rfl
  | cons r0 rt =>
    have hr0 : r0 ≠ '}' := fun hr => hnb rt (by rw [hr])
    split
    · rename_i heq
      exact absurd heq (by simp)
    · rename_i heq
      injection (Prod.mk.inj heq).2 with h1 h2
      injection h2 with h3 h4
      injection h4 with h5 h6
      exact absurd h5 hr0
    · rename_i heq
      obtain ⟨h1, h2⟩ := Prod.mk.inj heq
      injection h2 with h3 h4
      injection h4 with h5 h6
      rw [← h1, ← h6]
    · rename_i hex
      exact (hex (k :: ks) (r0 :: rt) rfl).elim

/-- Soundness of `matchBody`: a success decomposes the input after `{{` into
an optional third brace, a nonempty class key and the closing braces. -/
theorem matchBody_spec (kc : Char → Bool) (b m key rest : List Char)
    (h : matchBody kc b = some (m, key, rest)) :
    b = m ++ rest ∧ key ≠ [] ∧ (∀ c ∈ key, kc c = true) ∧
    ((m = key ++ ['}', '}'] ∧ NotBraceHead rest) ∨ m = key ++ ['}', '}', '}'] ∨
     (m = '{' :: (key ++ ['}', '}']) ∧ NotBraceHead rest) ∨
     m = '{' :: (key ++ ['}', '}', '}'])) := by
  unfold matchBody at h
  split at h
  · rename_i t
    split at h
    · rename_i m' key' rest' hin
      simp only [Option.some.injEq, Prod.mk.injEq] at h
      obtain ⟨rfl, rfl, rfl⟩ := h
      obtain ⟨hb, hk, hkc, hforms⟩ := matchKeyClose_spec kc t m' key' rest' hin
      refine ⟨by rw [hb]; rfl, hk, hkc, ?_⟩
      rcases hforms with ⟨hm, hnb⟩ | hm
      · exact Or.inr (Or.inr (Or.inl ⟨by rw [hm], hnb⟩))
      · exact Or.inr (Or.inr (Or.inr (by rw [hm])))
    · obtain ⟨hb, hk, hkc, hforms⟩ := matchKeyClose_spec kc _ m key rest h
      refine ⟨hb, hk, hkc, ?_⟩
      rcases hforms with ⟨hm, hnb⟩ | hm
      · exact Or.inl ⟨hm, hnb⟩
      · exact Or.inr (Or.inl hm)
  · obtain ⟨hb, hk, hkc, hforms⟩ := matchKeyClose_spec kc b m key rest h
    refine ⟨hb, hk, hkc, ?_⟩
    rcases hforms with ⟨hm, hnb⟩ | hm
    · exact Or.inl ⟨hm, hnb⟩
    · exact Or.inr (Or.inl hm)

/-- `matchBody` without a third opening brace, closing with `}}`. -/
theorem matchBody_plain_two (kc : Char → Bool) (hob : kc '{' = false)
    (hcb : kc '}' = false) (key rest : List Char) (hk : key ≠ [])
    (hkc : ∀ c ∈ key, kc c = true) (hnb : NotBraceHead rest) :
    matchBody kc (key ++ '}' :: '}' :: rest) =
      some (key ++ ['}', '}'], key, rest) := by
  obtain ⟨k, ks, rfl⟩ := List.exists_cons_of_ne_nil hk
  have hkne : k ≠ '{' := by
    intro hrw
    rw [hrw] at hkc
    exact absurd (hkc '{' (by simp)) (by simp [hob])
  unfold matchBody
  split
  · rename_i t heq
    exact absurd (List.cons.inj heq).1 hkne
  · exact matchKeyClose_two kc hcb (k :: ks) rest hk hkc hnb

/-- `matchBody` without a third opening brace, closing with `}}}`. -/
theorem matchBody_plain_three (kc : Char → Bool) (hob : kc '{' = false)
    (hcb : kc '}' = false) (key rest : List Char) (hk : key ≠ [])
    (hkc : ∀ c ∈ key, kc c = true) :
    matchBody kc (key ++ '}' :: '}' :: '}' :: rest) =
      some (key ++ ['}', '}', '}'], key, rest) := by
  obtain ⟨k, ks, rfl⟩ := List.exists_cons_of_ne_nil hk
  have hkne : k ≠ '{' := by
    intro hrw
    rw [hrw] at hkc
    exact absurd (hkc '{' (by simp)) (by simp [hob])
  unfold matchBody
  split
  · rename_i t heq
    exact absurd (List.cons.inj heq).1 hkne
  · exact matchKeyClose_three kc hcb (k :: ks) rest hk hkc

/-- `matchBody` with a third opening brace, closing with `}}`. -/
theorem matchBody_brace_two (kc : Char → Bool) (hcb : kc '}' = false)
    (key rest : List Char) (hk : key ≠ []) (hkc : ∀ c ∈ key, kc c = true)
    (hnb : NotBraceHead rest) :
    matchBody kc ('{' :: (key ++ '}' :: '}' :: rest)) =
      some ('{' :: (key ++ ['}', '}']), key, rest) := by
  have hin := matchKeyClose_two kc hcb key rest hk hkc hnb
  simp only [matchBody, hin]

/-- `matchBody` with a third opening brace, closing with `}}}`. -/
theorem matchBody_brace_three (kc : Char → Bool) (hcb : kc '}' = false)
    (key rest : List Char) (hk : key ≠ []) (hkc : ∀ c ∈ key, kc c = true) :
    matchBody kc ('{' :: (key ++ '}' :: '}' :: '}' :: rest)) =
      some ('{' :: (key ++ ['}', '}', '}']), key, rest) := by
  have hin := matchKeyClose_three kc hcb key rest hk hkc
  simp only [matchBody, hin]

/-- Soundness of `tryMatch`: a success is a placeholder match at the start of
the input in the declarative sense. -/
theorem tryMatch_matchAt (kc : Char → Bool) (l m key rest : List Char)
    (h : tryMatch kc l = some (m, key, rest)) : MatchAt kc l m key rest := by
  unfold tryMatch at h
  split at h
  · rename_i t
    split at h
    · rename_i m' key' rest' hin
      simp only [Option.some.injEq, Prod.mk.injEq] at h
      obtain ⟨rfl, rfl, rfl⟩ := h
      obtain ⟨hb, hk, hkc, hforms⟩ := matchBody_spec kc t m' key' rest' hin
      refine ⟨by rw [hb]; rfl, hk, hkc, ?_⟩
      rcases hforms with ⟨hm, hnb⟩ | hm | ⟨hm, hnb⟩ | hm
      · exact Or.inl ⟨by rw [hm], hnb⟩
      · exact Or.inr (Or.inl (by rw [hm]))
      · exact Or.inr (Or.inr (Or.inl ⟨by rw [hm], hnb⟩))
      · exact Or.inr (Or.inr (Or.inr (by rw [hm])))
    · exact absurd h (by simp)
  · exact absurd h (by simp)

/-- Completeness of `tryMatch`: every declarative placeholder match at the
start of the input is found (the class must reject braces, as `\w` and
`[\w\-]` do). -/
theorem matchAt_tryMatch (kc : Char → Bool) (hob : kc '{' = false)
    (hcb : kc '}' = false) (l m key rest : List Char)
    (h : MatchAt kc l m key rest) : tryMatch kc l = some (m, key, rest) := by
  obtain ⟨rfl, hk, hkc, hforms⟩ := h
  rcases hforms with ⟨rfl, hnb⟩ | rfl | ⟨rfl, hnb⟩ | rfl
  · have hb := matchBody_plain_two kc hob hcb key rest hk hkc hnb
    have hl : ('{' :: '{' :: (key ++ ['}', '}'])) ++ rest =
        '{' :: '{' :: (key ++ '}' :: '}' :: rest) := by
      simp
    rw [hl]
    simp only [tryMatch, hb]
  · have hb := matchBody_plain_three kc hob hcb key rest hk hkc
    have hl : ('{' :: '{' :: (key ++ ['}', '}', '}'])) ++ rest =
        '{' :: '{' :: (key ++ '}' :: '}' :: '}' :: rest) := by
      simp
    rw [hl]
    simp only [tryMatch, hb]
  · have hb := matchBody_brace_two kc hcb key rest hk hkc hnb
    have hl : ('{' :: '{' :: '{' :: (key ++ ['}', '}'])) ++ rest =
        '{' :: '{' :: ('{' :: (key ++ '}' :: '}' :: rest)) := by
      simp
    rw [hl]
    simp only [tryMatch, hb]
  · have hb := matchBody_brace_three kc hcb key rest hk hkc
    have hl : ('{' :: '{' :: '{' :: (key ++ ['}', '}', '}'])) ++ rest =
        '{' :: '{' :: ('{' :: (key ++ '}' :: '}' :: '}' :: rest)) := by
      simp
    rw [hl]
    simp only [tryMatch, hb]

/-- A successful match consumes at least one character. -/
theorem tryMatch_rest_length (kc : Char → Bool) (l m key rest : List Char)
    (h : tryMatch kc l = some (m, key, rest)) : rest.length < l.length := by
  obtain ⟨hl, -, -, hforms⟩ := tryMatch_matchAt kc l m key rest h
  subst hl
  rcases hforms with ⟨rfl, -⟩ | rfl | ⟨rfl, -⟩ | rfl <;>
    simp [List.length_append] <;> omega

/-- The remainder of a successful match consists of characters of the input. -/
theorem tryMatch_rest_mem (kc : Char → Bool) (l m key rest : List Char)
    (h : tryMatch kc l = some (m, key, rest)) : ∀ c ∈ rest, c ∈ l := by
  obtain ⟨hl, -, -, -⟩ := tryMatch_matchAt kc l m key rest h
  subst hl
  intro c hc
  exact List.mem_append_right m hc

/-- The fuelled scan implements the declarative replacement relation whenever
the fuel covers the input length (the class must reject braces). -/
theorem populateFuel_replaces (kc : Char → Bool) (data : List (String × String))
    (hob : kc '{' = false) (hcb : kc '}' = false) :
    ∀ (fuel : ℕ) (l : List Char), l.length ≤ fuel →
      Replaces kc (dataLookup data) l (populateFuel kc data fuel l) := by
  intro fuel
  induction fuel with
  | zero =>
    intro l hl
    have hnil : l = [] := List.length_eq_zero.mp (Nat.le_zero.mp hl)
    subst hnil
    exact Replaces.nil
  | succ f ih =>
    intro l hl
    cases l with
    | nil => exact Replaces.nil
    | cons c cs =>
      cases htm : tryMatch kc (c :: cs) with
      | none =>
        have hstep : populateFuel kc data (f + 1) (c :: cs) =
            c :: populateFuel kc data f cs := by
          simp only [populateFuel, htm]
        rw [hstep]
        refine Replaces.keep c cs _ ?_ (ih cs ?_)
        · intro m key rest hmat
          exact absurd (matchAt_tryMatch kc hob hcb _ m key rest hmat)
            (by simp [htm])
        · simp only [List.length_cons] at hl
          omega
      | some trip =>
        obtain ⟨m, key, rest⟩ := trip
        have hma := tryMatch_matchAt kc _ m key rest htm
        have hlen := tryMatch_rest_length kc _ m key rest htm
        have hl' := hma.1
        have hf : rest.length ≤ f := by
          simp only [List.length_cons] at hl hlen
          omega
        cases hdl : dataLookup data (String.mk key) with
        | some v =>
          have hstep : populateFuel kc data (f + 1) (c :: cs) =
              v.data ++ populateFuel kc data f rest := by
            simp only [populateFuel, htm, hdl]
          rw [hstep, hl']
          exact Replaces.subst m key rest _ v (hl' ▸ hma) hdl (ih rest hf)
        | none =>
          have hstep : populateFuel kc data (f + 1) (c :: cs) =
              m ++ populateFuel kc data f rest := by
            simp only [populateFuel, htm, hdl]
          rw [hstep, hl']
          exact Replaces.keepPh m key rest _ (hl' ▸ hma) hdl (ih rest hf)

/-- `spanKey` depends only on the class values of the input's characters. -/
theorem spanKey_congr (kc1 kc2 : Char → Bool) :
    ∀ l : List Char, (∀ c ∈ l, kc1 c = kc2 c) → spanKey kc1 l = spanKey kc2 l := by
  intro l
  induction l with
  | nil => intro _; rfl
  | cons c cs ih =>
    intro h
    have hc := h c (by simp)
    have ih' := ih fun d hd => h d (by simp [hd])
    by_cases h1 : kc1 c = true
    · have h2 : kc2 c = true := by rw [← hc]; exact h1
      simp [spanKey, h1, h2, ih']
    · have h2 : ¬ kc2 c = true := by rw [← hc]; exact h1
      simp [spanKey, h1, h2]

/-- The key of a placeholder match consists of characters of the input. -/
theorem matchAt_key_mem (kc : Char → Bool) (l m key rest : List Char)
    (h : MatchAt kc l m key rest) : ∀ c ∈ key, c ∈ l := by
  obtain ⟨rfl, -, -, hforms⟩ := h
  intro c hc
  rcases hforms with ⟨rfl, -⟩ | rfl | ⟨rfl, -⟩ | rfl <;> simp [hc]

/-- `tryMatch` depends only on the class values of the input's characters
(for classes rejecting braces). -/
theorem tryMatch_congr (kc1 kc2 : Char → Bool)
    (hob1 : kc1 '{' = false) (hcb1 : kc1 '}' = false)
    (hob2 : kc2 '{' = false) (hcb2 : kc2 '}' = false)
    (l : List Char) (h : ∀ c ∈ l, kc1 c = kc2 c) :
    tryMatch kc1 l = tryMatch kc2 l := by
  cases h1 : tryMatch kc1 l with
  | some trip =>
    obtain ⟨m, key, rest⟩ := trip
    have hma := tryMatch_matchAt kc1 l m key rest h1
    have hkeymem := matchAt_key_mem kc1 l m key rest hma
    have hma2 : MatchAt kc2 l m key rest := by
      obtain ⟨hl, hk, hkc, hforms⟩ := hma
      exact ⟨hl, hk, fun c hc => by rw [← h c (hkeymem c hc)]; exact hkc c hc,
        hforms⟩
    exact (matchAt_tryMatch kc2 hob2 hcb2 l m key rest hma2).symm
  | none =>
    cases h2 : tryMatch kc2 l with
    | none => rfl
    | some trip =>
      obtain ⟨m, key, rest⟩ := trip
      have hma := tryMatch_matchAt kc2 l m key rest h2
      have hkeymem := matchAt_key_mem kc2 l m key rest hma
      have hma1 : MatchAt kc1 l m key rest := by
        obtain ⟨hl, hk, hkc, hforms⟩ := hma
        exact ⟨hl, hk, fun c hc => by rw [h c (hkeymem c hc)]; exact hkc c hc,
          hforms⟩
      rw [matchAt_tryMatch kc1 hob1 hcb1 l m key rest hma1] at h1
      exact absurd h1 (by simp)

/-- The fuelled scan depends only on the class values of the input's
characters (for classes rejecting braces). -/
theorem populateFuel_congr (kc1 kc2 : Char → Bool)
    (data : List (String × String))
    (hob1 : kc1 '{' = false) (hcb1 : kc1 '}' = false)
    (hob2 : kc2 '{' = false) (hcb2 : kc2 '}' = false) :
    ∀ (fuel : ℕ) (l : List Char), (∀ c ∈ l, kc1 c = kc2 c) →
      populateFuel kc1 data fuel l = populateFuel kc2 data fuel l := by
  intro fuel
  induction fuel with
  | zero => intro l _; rfl
  | succ f ih =>
    intro l h
    cases l with
    | nil => rfl
    | cons c cs =>
      have htm := tryMatch_congr kc1 kc2 hob1 hcb1 hob2 hcb2 (c :: cs) h
      cases h1 : tryMatch kc1 (c :: cs) with
      | none =>
        have h2 : tryMatch kc2 (c :: cs) = none := by rw [← htm]; exact h1
        simp only [populateFuel, h1, h2]
        rw [ih cs fun d hd => h d (by simp [hd])]
      | some trip =>
        obtain ⟨m, key, rest⟩ := trip
        have h2 : tryMatch kc2 (c :: cs) = some (m, key, rest) := by
          rw [← htm]
          exact h1
        have hmem := tryMatch_rest_mem kc1 (c :: cs) m key rest h1
        simp only [populateFuel, h1, h2]
        rw [ih rest fun d hd => h d (hmem d hd)]

/-- C6: `_populateTemplate` replaces each placeholder of the form `{{key}}` or
`{{{key}}}` whose key the data object has (`hasOwnProperty`) with the
corresponding value, leaves every placeholder whose key it does not have
unchanged, and leaves the text outside placeholders unchanged. -/
theorem populateTemplate_replaces_spec (data : List (String × String))
    (t : String) :
    Replaces isKeyCharHyphen (dataLookup data) t.data
      (populateTemplate data t).data :=
  populateFuel_replaces isKeyCharHyphen data (by decide) (by decide)
    t.data.length t.data le_rfl

/-- C9 counterexample: on the template `{{a-b}}` with data having the key
`a-b`, the first version substitutes the value while the second leaves the
placeholder unchanged, so the two embedded versions are not equivalent. -/
theorem populateTemplate_versions_differ :
    populateTemplate [("a-b", "X")] "\x7b\x7ba-b\x7d\x7d" ≠
      populateTemplateV2 [("a-b", "X")] "\x7b\x7ba-b\x7d\x7d" := by
  decide

/-- C9 (amended): the two embedded versions of `_populateTemplate` compute the
same output on every template string that contains no hyphen character (for
every data object); they can differ only on hyphenated placeholder keys, which
only the first version's class `[\w\-]` accepts. -/
theorem populateTemplate_versions_agree (data : List (String × String))
    (t : String) (h : '-' ∉ t.data) :
    populateTemplate data t = populateTemplateV2 data t := by
  unfold populateTemplate populateTemplateV2
  congr 1
  refine populateFuel_congr isKeyCharHyphen isWordChar data (by decide)
    (by decide) (by decide) (by decide) t.data.length t.data ?_
  intro c hc
  have hcne : c ≠ '-' := fun hrw => h (hrw ▸ hc)
  simp [isKeyCharHyphen, hcne]

/-- Witness for the amended C9 at a concrete hyphen-free template. -/
theorem populateTemplate_versions_agree_witness :
    '-' ∉ ("\x7b\x7bab\x7d\x7d" : String).data ∧
    populateTemplate [("ab", "X")] "\x7b\x7bab\x7d\x7d" =
      populateTemplateV2 [("ab", "X")] "\x7b\x7bab\x7d\x7d" :=
  ⟨by decide,
   populateTemplate_versions_agree [("ab", "X")] "\x7b\x7bab\x7d\x7d" (by decide)⟩
